import Mathlib

/-!
Verification development for the r-assist repository
(`src/scripts/interact_with_rstudio.py`).

Python strings are embedded as `List Char` (`Str`).  The regular
expressions used by the validators are small and fixed, so each one is
embedded as an executable scanning function with the same semantics
(`re.search` with `IGNORECASE | MULTILINE`).  Filesystem and subprocess
effects (temp-file creation, session resolution, the RPC transport, the
result poll) are externalized as explicit parameters of the modelled
functions.
-/

abbrev Str := List Char

/-- Character list of a string literal. -/
def chs (s : String) : Str := s.data

/-- Python `\s` whitespace class (also the characters stripped by `str.strip`
for the ASCII inputs handled here). -/
def isSpc (c : Char) : Bool :=
  c = ' ' || c = '\t' || c = '\n' || c = '\r' || c = '\x0b' || c = '\x0c'

/-- Prefix test: `hasPre p l` holds when `p` is a prefix of `l`. -/
def hasPre : Str → Str → Bool
  | [], _ => true
  | _ :: _, [] => false
  | a :: p, b :: l => if a = b then hasPre p l else false

/-- Substring test: `listHas hay n` holds when `n` occurs as a contiguous substring of `hay`
(Python `n in hay`, and `re.search` for a literal pattern). -/
def listHas : Str → Str → Bool
  | [], n => hasPre n []
  | c :: t, n => hasPre n (c :: t) || listHas t n

/-- Python `str.strip()` (embedding `trim`, line 71). -/
def trim (l : Str) : Str :=
  ((l.dropWhile isSpc).reverse.dropWhile isSpc).reverse

/-- Python `str.lower()` for the ASCII strings handled here. -/
def lowerStr (l : Str) : Str := l.map Char.toLower

/-- Case-insensitive prefix strip: `stripCI p l = some rest` iff `l` starts
with `p` up to ASCII case, returning the remainder. -/
def stripCI : Str → Str → Option Str
  | [], l => some l
  | _ :: _, [] => none
  | a :: p, b :: l => if a.toLower = b.toLower then stripCI p l else none

/-- A character of the regex class `[A-Za-z0-9_.]`. -/
def isWordChar (c : Char) : Bool := c.isAlphanum || c = '_' || c = '.'

/-- After a matched word: `\s*` then a literal `(`. -/
def wsThenParen (l : Str) : Bool :=
  match l.dropWhile isSpc with
  | '(' :: _ => true
  | _ => false

/-- One alternation step of a call pattern `(w1|…|wn)\s*\(` at the current
position (case-insensitive, as `re.IGNORECASE`). -/
def callPatternAt (words : List Str) (l : Str) : Bool :=
  words.any fun w =>
    match stripCI w l with
    | some rest => wsThenParen rest
    | none => false

/-- Scan for `[^A-Za-z0-9_.](w1|…|wn)\s*\(` anywhere in the text. -/
def callPatternCore (words : List Str) : Str → Bool
  | [] => false
  | c :: rest => (!isWordChar c && callPatternAt words rest) || callPatternCore words rest

/-- Embedding of `contains_regex(code, r"(^|[^A-Za-z0-9_.])(w1|…|wn)\s*\(")`:
either the word group matches at the start of the text, or it is preceded by a
character outside `[A-Za-z0-9_.]` (a newline is such a character, which also
covers the `MULTILINE` `^` alternative). -/
def callPattern (words : List Str) (l : Str) : Bool :=
  callPatternAt words l || callPatternCore words l

/-- Word group of the third `COMMON_BLOCKED_PATTERNS` entry (line 25). -/
def common_call_words : List Str :=
  [chs "save", chs "saveRDS", chs "load", chs "setwd", chs "options",
   chs "Sys.setenv", chs "library", chs "require", chs "attach", chs "detach",
   chs "sink", chs "system", chs "system2"]

/-- Word group of the fourth `COMMON_BLOCKED_PATTERNS` entry (line 26). -/
def quit_call_words : List Str := [chs "q", chs "quit"]

/-- Word group of `APPEND_FILE_BLOCKED_PATTERNS` (lines 29-31). -/
def append_file_words : List Str :=
  [chs "write", chs "writeLines", chs "write.csv", chs "write.csv2",
   chs "write.delim", chs "write.delim2", chs "write.table", chs "fwrite",
   chs "cat", chs "saveRDS", chs "save", chs "load", chs "file.create",
   chs "dir.create", chs "unlink", chs "file.remove", chs "file.rename",
   chs "file.copy", chs "file.append", chs "download.file", chs "png",
   chs "jpeg", chs "svg", chs "bmp", chs "tiff", chs "pdf",
   chs "postscript", chs "quartz", chs "x11"]

/-- Scan for `[^)]*local\s*=` inside the `source(` arguments
(pattern `source\s*\([^)]*local\s*=`, line 104). -/
def scanLocalEq : Str → Bool
  | [] => false
  | c :: rest =>
    (match stripCI (chs "local") (c :: rest) with
     | some r =>
       (match r.dropWhile isSpc with
        | '=' :: _ => true
        | _ => false)
     | none => false)
    || (if c = ')' then false else scanLocalEq rest)

/-- Scan for `[^)]*local\s*=\s*FALSE` (pattern of line 106). -/
def scanLocalEqFalse : Str → Bool
  | [] => false
  | c :: rest =>
    (match stripCI (chs "local") (c :: rest) with
     | some r =>
       (match r.dropWhile isSpc with
        | '=' :: r2 => (stripCI (chs "FALSE") (r2.dropWhile isSpc)).isSome
        | _ => false)
     | none => false)
    || (if c = ')' then false else scanLocalEqFalse rest)

/-- Match of `source\s*\(` followed by the remainder scan `k`, at any position
(the patterns of lines 104 and 106 have no leading boundary group). -/
def sourceOpenThen (k : Str → Bool) : Str → Bool
  | [] => false
  | c :: rest =>
    (match stripCI (chs "source") (c :: rest) with
     | some r =>
       (match r.dropWhile isSpc with
        | '(' :: r2 => k r2
        | _ => false)
     | none => false)
    || sourceOpenThen k rest

/-- Embedding of `contains_regex(code, r"source\s*\([^)]*local\s*=")`. -/
def sourceLocalSet (code : Str) : Bool := sourceOpenThen scanLocalEq code

/-- Embedding of `contains_regex(code, r"source\s*\([^)]*local\s*=\s*FALSE")`. -/
def sourceLocalFalse (code : Str) : Bool := sourceOpenThen scanLocalEqFalse code

/-- One alternation step of `(\.GlobalEnv|globalenv\s*\()` (line 152). -/
def globalEnvAt (l : Str) : Bool :=
  (stripCI (chs ".GlobalEnv") l).isSome ||
    (match stripCI (chs "globalenv") l with
     | some r => wsThenParen r
     | none => false)

/-- Scan for `[^A-Za-z0-9_.](\.GlobalEnv|globalenv\s*\()`. -/
def globalEnvCore : Str → Bool
  | [] => false
  | c :: rest => (!isWordChar c && globalEnvAt rest) || globalEnvCore rest

/-- Embedding of `contains_regex(snippet, r"(^|[^A-Za-z0-9_.])(\.GlobalEnv|globalenv\s*\()")`. -/
def globalEnvPattern (l : Str) : Bool := globalEnvAt l || globalEnvCore l

/-- Match of `\s*$` with `MULTILINE`: only whitespace up to the end of the text or up
to some newline. -/
def wsThenEOL : Str → Bool
  | [] => true
  | c :: t => if c = '\n' then true else if isSpc c then wsThenEOL t else false

/-- Exact prefix strip: `stripPre p l = some rest` iff `l = p ++ rest`. -/
def stripPre : Str → Str → Option Str
  | [], l => some l
  | _ :: _, [] => none
  | a :: p, b :: l => if a = b then stripPre p l else none

/-- One alternation step of `(<-|->|=)\s*$` at the current position. -/
def incompleteAt (l : Str) : Bool :=
  [chs "<-", chs "->", chs "="].any fun tok =>
    match stripPre tok l with
    | some rest => wsThenEOL rest
    | none => false

/-- Embedding of `contains_regex(var_expr, r"(<-|->|=)\s*$")` (line 140). -/
def hasIncomplete : Str → Bool
  | [] => false
  | c :: t => incompleteAt (c :: t) || hasIncomplete t

/-- Embedding of `validate_common_blocklist` (lines 98-107). -/
def validate_common_blocklist (code label : Str) : Except Str Unit :=
  if listHas code (chs "<<-") then
    .error (label ++ chs " contains blocked pattern (left double-arrow).")
  else if listHas code (chs "->>") then
    .error (label ++ chs " contains blocked pattern (right double-arrow).")
  else if callPattern common_call_words code then
    .error (label ++ chs " contains blocked pattern (side-effecting call).")
  else if callPattern quit_call_words code then
    .error (label ++ chs " contains blocked pattern (process exit call).")
  else if callPattern [chs "source"] code then
    if !sourceLocalSet code then
      .error (label ++ chs " uses source(...) without local= explicitly set.")
    else if sourceLocalFalse code then
      .error (label ++ chs " uses source(..., local = FALSE), which is not allowed.")
    else .ok ()
  else .ok ()

/-- Embedding of `validate_append_file_restrictions` (lines 110-113). -/
def validate_append_file_restrictions (code : Str) : Except Str Unit :=
  if callPattern append_file_words code then
    .error (chs "APPEND_CODE may not write files.")
  else .ok ()

/-- Embedding of `validate_assignment_free` (lines 116-120). -/
def validate_assignment_free (code label : Str) : Except Str Unit :=
  if listHas code (chs "<-") then
    .error (label ++ chs " cannot contain left-arrow assignment.")
  else if listHas code (chs "->") then
    .error (label ++ chs " cannot contain right-arrow assignment.")
  else .ok ()

/-- Embedding of `re.fullmatch(r"[A-Za-z.][A-Za-z0-9._]*", value)` (line 124). -/
def matchIdent : Str → Bool
  | [] => false
  | c :: rest => (c.isAlpha || c = '.') && rest.all isWordChar

/-- Embedding of `validate_identifier` (lines 123-125). -/
def validate_identifier (value label : Str) : Except Str Unit :=
  if matchIdent value then .ok ()
  else .error (label ++ chs " is not a valid identifier.")

/-- First occurrence split: `splitFirst sep l = some (a, b)` with
`l = a ++ sep ++ b` splitting at the first occurrence of `sep`, `none` when
`sep` does not occur (Python `sep in l` / `l.split(sep, 1)`). -/
def splitFirst (sep : Str) : Str → Option (Str × Str)
  | [] => if hasPre sep [] then some ([], ([] : Str).drop sep.length) else none
  | c :: t =>
    if hasPre sep (c :: t) then some ([], (c :: t).drop sep.length)
    else
      match splitFirst sep t with
      | some (a, b) => some (c :: a, b)
      | none => none

/-- Embedding of `validate_name_expr_spec` (lines 128-145). -/
def validate_name_expr_spec (spec label : Str) : Except Str (Str × Str) :=
  match splitFirst (chs ":=") spec with
  | none => .error (label ++ chs " requires name := expr.")
  | some (name_part, expr_part) =>
    let var_name := trim name_part
    let var_expr := trim expr_part
    if var_name.isEmpty || var_expr.isEmpty then
      .error (label ++ chs " requires non-empty name and expression.")
    else if !matchIdent var_name then
      .error (label ++ chs " name is not a valid identifier.")
    else if hasIncomplete var_expr then
      .error (label ++ chs " expression looks incomplete.")
    else
      match validate_common_blocklist var_expr label with
      | .error e => .error e
      | .ok _ =>
        match validate_assignment_free var_expr label with
        | .error e => .error e
        | .ok _ => .ok (var_name, var_expr)

/-- Embedding of `validate_append_snippet` (lines 148-154). -/
def validate_append_snippet (snippet : Str) : Except Str Unit :=
  if (trim snippet).isEmpty then .error (chs "append cannot be empty.")
  else
    match validate_common_blocklist snippet (chs "Appended code") with
    | .error e => .error e
    | .ok _ =>
      if globalEnvPattern snippet then
        .error (chs "Appended code cannot directly target .GlobalEnv.")
      else validate_append_file_restrictions snippet

/-- Embedding of `validate_result_expr` (lines 157-163). -/
def validate_result_expr (expr : Str) : Except Str Unit :=
  if (trim expr).isEmpty then .error (chs "result cannot be empty.")
  else if expr.contains '\n' then .error (chs "result must be one line.")
  else
    match validate_common_blocklist expr (chs "Result expression") with
    | .error e => .error e
    | .ok _ => validate_assignment_free expr (chs "Result expression")

/-- Embedding of `validate_state_export_expr` (lines 166-172). -/
def validate_state_export_expr (expr : Str) : Except Str Unit :=
  if (trim expr).isEmpty then .error (chs "export cannot be empty.")
  else if expr.contains '\n' then .error (chs "export must be one line.")
  else
    match validate_common_blocklist expr (chs "R_STATE_EXPORT expression") with
    | .error e => .error e
    | .ok _ => validate_assignment_free expr (chs "R_STATE_EXPORT expression")

/-- Embedding of `validate_modify_global_snippet` (lines 175-178). -/
def validate_modify_global_snippet (snippet : Str) : Except Str Unit :=
  if (trim snippet).isEmpty then .error (chs "modify cannot be empty.")
  else
    match validate_common_blocklist snippet (chs "Global-modify code") with
    | .error e => .error e
    | .ok _ => .ok ()

/-- Is the outcome an error? (a raised `ValidationError`). -/
def isErr : Except Str α → Bool
  | .error _ => true
  | .ok _ => false

/-- Embedding of `parse_bool` (lines 388-394). -/
def parse_bool (value : Str) : Except Str Bool :=
  let normalized := lowerStr (trim value)
  if normalized ∈ [chs "1", chs "true", chs "on", chs "yes"] then .ok true
  else if normalized ∈ [chs "0", chs "false", chs "off", chs "no"] then .ok false
  else .error (chs "Invalid boolean value.")

/-- Embedding of the check done by `ensure_int_string`
(`re.fullmatch(r"\d+", value)`, lines 397-399). -/
def ensure_int_string (value : Str) : Bool :=
  !value.isEmpty && value.all Char.isDigit

/-- Embedding of the `State` dataclass (lines 34-51); only the fields the
modelled behavior reads. -/
structure State where
  append_code_snippets : List Str := []
  result_expr : Str := []
  state_export_expr : Str := []
  create_global_specs : List Str := []
  modify_global_snippets : List Str := []
  session_dir : Str := []
  request_id : Str := chs "1"
  rpostback_bin : Str := []
  out_path : Str := []
  timeout_seconds : Str := chs "8"
  rpc_timeout_seconds : Str := chs "12"
  benchmark_mode : Bool := false
  benchmark_unit : Str := chs "seconds"
  print_code : Bool := false
  capture_output : Bool := false

/-- Embedding of `State.clear_capabilities` (lines 53-59). -/
def State.clear_capabilities (st : State) : State :=
  { st with
    append_code_snippets := []
    result_expr := []
    state_export_expr := []
    create_global_specs := []
    modify_global_snippets := []
    benchmark_mode := false }

/-- Embedding of the `SendContext` dataclass (lines 62-68). -/
structure SendContext where
  expect_result : Bool
  out_path : Str
  is_temp_out_path : Bool
  state_export_path : Str
  append_only : Bool
deriving Repr

/-- Raise the first validation error of a loop over snippets
(the `for snippet in ...: validate_*(snippet)` loops of lines 476-489). -/
def firstError (f : Str → Except Str Unit) : List Str → Except Str Unit
  | [] => .ok ()
  | x :: xs =>
    match f x with
    | .error e => .error e
    | .ok _ => firstError f xs

/-- The flag and option checks of `validate_state_for_send` (lines 452-474),
in source order. -/
def validate_send_flags (st : State) : Except Str Unit :=
  let has_append := !st.append_code_snippets.isEmpty
  let has_result := !st.result_expr.isEmpty
  let has_export := !st.state_export_expr.isEmpty
  let has_create := !st.create_global_specs.isEmpty
  let has_modify := !st.modify_global_snippets.isEmpty
  let has_any := has_append || has_result || has_export || has_create || has_modify
  if !has_any then .error (chs "At least one capability is required.")
  else if has_export && (has_result || has_create || has_modify) then
    .error (chs "export cannot be combined with result, create, or modify.")
  else if !(st.benchmark_unit = chs "seconds" || st.benchmark_unit = chs "ms") then
    .error (chs "benchmark-unit must be either seconds or ms.")
  else if st.benchmark_mode && !has_result then
    .error (chs "benchmark requires result.")
  else if st.benchmark_mode && (has_export || has_create || has_modify) then
    .error (chs "benchmark cannot be combined with export, create, or modify.")
  else if !ensure_int_string st.request_id then
    .error (chs "id must be an integer.")
  else if !ensure_int_string st.timeout_seconds then
    .error (chs "timeout must be an integer.")
  else if !ensure_int_string st.rpc_timeout_seconds then
    .error (chs "rpc-timeout must be an integer.")
  else .ok ()

/-- The per-capability validation loops of `validate_state_for_send`
(lines 476-489), in source order. -/
def validate_send_payloads (st : State) : Except Str Unit :=
  match firstError validate_append_snippet st.append_code_snippets with
  | .error e => .error e
  | .ok _ =>
    match (if !st.result_expr.isEmpty then validate_result_expr st.result_expr
           else .ok ()) with
    | .error e => .error e
    | .ok _ =>
      match (if !st.state_export_expr.isEmpty then
               validate_state_export_expr st.state_export_expr
             else .ok ()) with
      | .error e => .error e
      | .ok _ =>
        match firstError
            (fun s => (validate_name_expr_spec s (chs "create")).map (fun _ => ()))
            st.create_global_specs with
        | .error e => .error e
        | .ok _ => firstError validate_modify_global_snippet st.modify_global_snippets

/-- The derived-context step of `validate_state_for_send` (lines 491-517):
the capture-output precondition and the `SendContext` construction.  The two
`tempfile.mkstemp` calls are externalized: `tmp_out` and `tmp_state` are the
paths the temp files would receive. -/
def make_send_context (st : State) (tmp_out tmp_state : Str) : Except Str SendContext :=
  let has_append := !st.append_code_snippets.isEmpty
  let has_terminal := !st.result_expr.isEmpty || !st.state_export_expr.isEmpty
    || !st.create_global_specs.isEmpty || !st.modify_global_snippets.isEmpty
  let expect_result := !st.result_expr.isEmpty || !st.state_export_expr.isEmpty
  let append_only := has_append && !has_terminal
  if st.capture_output && !expect_result then
    .error (chs "capture-output requires result or export.")
  else
    let out_pair :=
      if expect_result && st.out_path.isEmpty then (tmp_out, true)
      else (st.out_path, false)
    let state_export_path := if !st.state_export_expr.isEmpty then tmp_state else ([] : Str)
    .ok ⟨expect_result, out_pair.1, out_pair.2, state_export_path, append_only⟩

/-- Embedding of `validate_state_for_send` (lines 443-517), as the three
stages above in source order. -/
def validate_state_for_send (st : State) (tmp_out tmp_state : Str) :
    Except Str SendContext :=
  match validate_send_flags st with
  | .error e => .error e
  | .ok _ =>
    match validate_send_payloads st with
    | .error e => .error e
    | .ok _ => make_send_context st tmp_out tmp_state

/-- Embedding of `escape_for_r_string` (lines 79-83).  The three sequential
`str.replace` passes never re-examine characters they insert, so they equal
this single character-wise pass. -/
def escape_for_r_string (l : Str) : Str :=
  (l.map fun c =>
    if c = '\\' then ['\\', '\\']
    else if c = '"' then ['\\', '"']
    else if c = '\n' then ['\\', 'n']
    else [c]).foldr (· ++ ·) []

/-- Concatenation of a list of strings (Python `"".join`). -/
def concatAll (ls : List Str) : Str := ls.foldr (· ++ ·) []

/-- Embedding of `join_lines` (lines 86-89): `"\n".join(lines) + "\n"` for a
non-empty list, `""` for the empty list. -/
def join_lines (ls : List Str) : Str := ls.foldr (fun l acc => l ++ '\n' :: acc) []

/-- Python `text.rstrip("\n")`. -/
def rstripNL (l : Str) : Str := (l.reverse.dropWhile (fun c => c = '\n')).reverse

/-- Python `text.split("\n")`. -/
def splitNL : Str → List Str
  | [] => [[]]
  | c :: t =>
    if c = '\n' then [] :: splitNL t
    else
      match splitNL t with
      | [] => [[c]]
      | h :: r => (c :: h) :: r

/-- Embedding of `indent_block` (lines 92-95). -/
def indent_block (text indent : Str) : Str :=
  if text.isEmpty then []
  else concatAll ((splitNL (rstripNL text)).map fun line => indent ++ (line ++ ['\n']))

/-- Generated line 586: start of the benchmark timer. -/
def bench_t0_line : Str := chs ".codex_bench_t0 <- proc.time()[[\"elapsed\"]]"

/-- Generated line 588: benchmark-mode trapped evaluation of the result
expression, yielding the elapsed seconds. -/
def bench_try_line (expr : Str) : Str :=
  chs ".codex_result_expr <- tryCatch(\x7b invisible((" ++ expr ++
    chs ")); proc.time()[[\"elapsed\"]] - .codex_bench_t0 \x7d, error = function(e) e)"

/-- Generated line 591: millisecond scaling, emitted only for benchmark unit
`ms`, and guarded at run time by the not-an-error test. -/
def bench_ms_line : Str :=
  chs "if (!inherits(.codex_result_expr, \"error\")) .codex_result_expr <- .codex_result_expr * 1000"

/-- Generated line 594: plain trapped evaluation of the result expression. -/
def plain_try_line (expr : Str) : Str :=
  chs ".codex_result_expr <- tryCatch((" ++ expr ++ chs "), error = function(e) e)"

/-- Generated lines 599-604: the state-export block. -/
def export_lines (expr state_path : Str) : List Str :=
  [chs ".codex_state_export_path <- \"" ++ escape_for_r_string state_path ++ chs "\"",
   chs ".codex_state_payload <- (" ++ expr ++ chs ")",
   chs "saveRDS(.codex_state_payload, file = .codex_state_export_path, compress = \"xz\")",
   chs "rm(.codex_state_payload)",
   chs "if (!file.exists(.codex_state_export_path)) stop(\"State export file was not created\")",
   chs ".codex_result_expr <- .codex_state_export_path"]

/-- The `r_exec_lines` list built by `build_r_code` (lines 576-604): the
appended snippets, then the result-expression lines, then the export lines. -/
def r_exec_lines (st : State) (state_export_path : Str) : List Str :=
  st.append_code_snippets
  ++ (if !st.result_expr.isEmpty then
        (if st.benchmark_mode then
          [bench_t0_line, bench_try_line st.result_expr]
            ++ (if st.benchmark_unit = chs "ms" then [bench_ms_line] else [])
        else [plain_try_line st.result_expr])
      else [])
  ++ (if !st.state_export_expr.isEmpty then
        export_lines st.state_export_expr state_export_path
      else [])

/-- Generated lines 613-617: the three lines emitted per `create` spec. -/
def create_lines_for (name expr : Str) : List Str :=
  [chs "if (exists(\"" ++ name ++
     chs "\", envir = .GlobalEnv, inherits = FALSE)) stop(\"CREATE_NEW_GLOBAL_VARIABLE refused: \x27" ++
     name ++ chs "\x27 already exists in .GlobalEnv\")",
   name ++ chs " <- (" ++ expr ++ chs ")",
   chs "assign(\"" ++ name ++ chs "\", " ++ name ++ chs ", envir = .GlobalEnv)"]

/-- The `create` loop of `build_r_code` (lines 606-617): validates each spec
again, refuses duplicate names, and accumulates the generated lines and the
declared names in order. -/
def build_create_lines : List Str → List Str → Except Str (List Str × List Str)
  | [], _ => .ok ([], [])
  | spec :: rest, seen =>
    match validate_name_expr_spec spec (chs "create") with
    | .error e => .error e
    | .ok (name, expr) =>
      if name ∈ seen then .error (chs "create duplicates name in one invocation.")
      else
        match build_create_lines rest (name :: seen) with
        | .error e => .error e
        | .ok (lines, names) => .ok (create_lines_for name expr ++ lines, name :: names)

/-- Generated lines 619-621: one `modify` snippet evaluated in `.GlobalEnv`. -/
def modify_line (s : Str) : Str :=
  chs "eval(parse(text = \"" ++ escape_for_r_string s ++ chs "\"), envir = .GlobalEnv)"

/-- Python `sep.join(parts)`. -/
def joinSep (sep : Str) : List Str → Str
  | [] => []
  | [x] => x
  | x :: y :: xs => x ++ sep ++ joinSep sep (y :: xs)

/-- A name rendered as `"name"` for the allowed-added vector (line 623). -/
def quoteName (n : Str) : Str := '"' :: (n ++ ['"'])

/-- Generated lines 633-640: the fixed prologue of the synthesized fragment. -/
def code_prologue (allowed out_escaped : Str) (capture : Bool) : Str :=
  chs ".codex_before <- ls(envir = .GlobalEnv, all.names = TRUE)\n"
  ++ (chs ".codex_allowed_added <- c(" ++ allowed ++ chs ")\n")
  ++ (chs ".codex_result_out_path <- \"" ++ out_escaped ++ chs "\"\n")
  ++ (chs ".codex_capture_output <- " ++ (if capture then chs "TRUE" else chs "FALSE") ++ chs "\n")
  ++ chs ".codex_captured_stdout <- character(0)\n"
  ++ chs ".codex_captured_stderr <- character(0)\n"
  ++ chs ".codex_result_written <- FALSE\n"
  ++ chs ".codex_exec_result <- NULL\n"

/-- Generated lines 641-649: the `.codex_run_core` definition wrapping the
exec block in a child environment of `.GlobalEnv`, then the create and modify
blocks. -/
def run_core_block (exec_block create_block modify_block : Str) : Str :=
  chs ".codex_run_core <- function() \x7b\n"
  ++ chs "  .codex_exec_result <<- with(new.env(parent = .GlobalEnv), \x7b\n"
  ++ indent_block exec_block (chs "    ")
  ++ chs "  \x7d)\n"
  ++ (if !create_block.isEmpty then indent_block create_block (chs "  ") else [])
  ++ (if !modify_block.isEmpty then indent_block modify_block (chs "  ") else [])
  ++ chs "\x7d\n"

/-- Generated lines 650-669: the `.codex_msg` helper and the trapped top-level
execution with optional output capture.  This text is fixed. -/
def msg_exec_block : Str :=
  chs ".codex_msg <- function(x) \x7b\n"
  ++ chs "  if (inherits(x, \"condition\")) conditionMessage(x) else as.character(x)\n"
  ++ chs "\x7d\n"
  ++ chs ".codex_exec_error <- tryCatch(\x7b\n"
  ++ chs "  if (.codex_capture_output) \x7b\n"
  ++ chs "    .codex_captured_stdout <- capture.output(\x7b\n"
  ++ chs "      withCallingHandlers(\x7b\n"
  ++ chs "        .codex_run_core()\n"
  ++ chs "      \x7d, message = function(m) \x7b\n"
  ++ chs "        .codex_captured_stderr <<- c(.codex_captured_stderr, conditionMessage(m))\n"
  ++ chs "        invokeRestart(\"muffleMessage\")\n"
  ++ chs "      \x7d, warning = function(w) \x7b\n"
  ++ chs "        .codex_captured_stderr <<- c(.codex_captured_stderr, paste0(\"WARNING: \", conditionMessage(w)))\n"
  ++ chs "        invokeRestart(\"muffleWarning\")\n"
  ++ chs "      \x7d)\n"
  ++ chs "    \x7d, type = \"output\")\n"
  ++ chs "  \x7d else \x7b\n"
  ++ chs "    .codex_run_core()\n"
  ++ chs "  \x7d\n"
  ++ chs "\x7d, error = function(e) e)\n"

/-- Generated lines 672-703: the four terminal-outcome serialization blocks
(trapped error / missing result / in-expression error / value), emitted only
when a result artifact is expected.  This text is fixed. -/
def result_section : Str :=
  chs "if (!is.null(.codex_exec_error)) \x7b\n"
  ++ chs "  if (.codex_capture_output) \x7b\n"
  ++ chs "    dput(list(error = .codex_msg(.codex_exec_error), stdout = .codex_captured_stdout, stderr = .codex_captured_stderr), file = .codex_result_out_path)\n"
  ++ chs "  \x7d else \x7b\n"
  ++ chs "    writeLines(paste0(\"__ERROR__:\", .codex_msg(.codex_exec_error)), .codex_result_out_path)\n"
  ++ chs "  \x7d\n"
  ++ chs "  .codex_result_written <- TRUE\n"
  ++ chs "\x7d\n"
  ++ chs "if (is.null(.codex_exec_error) && is.null(.codex_exec_result)) \x7b\n"
  ++ chs "  if (.codex_capture_output) \x7b\n"
  ++ chs "    dput(list(error = \"no result produced\", stdout = .codex_captured_stdout, stderr = .codex_captured_stderr), file = .codex_result_out_path)\n"
  ++ chs "  \x7d else \x7b\n"
  ++ chs "    writeLines(\"__ERROR__: no result produced\", .codex_result_out_path)\n"
  ++ chs "  \x7d\n"
  ++ chs "  .codex_result_written <- TRUE\n"
  ++ chs "\x7d\n"
  ++ chs "if (is.null(.codex_exec_error) && inherits(.codex_exec_result, \"error\")) \x7b\n"
  ++ chs "  if (.codex_capture_output) \x7b\n"
  ++ chs "    dput(list(error = .codex_msg(.codex_exec_result), stdout = .codex_captured_stdout, stderr = .codex_captured_stderr), file = .codex_result_out_path)\n"
  ++ chs "  \x7d else \x7b\n"
  ++ chs "    writeLines(paste0(\"__ERROR__:\", .codex_msg(.codex_exec_result)), .codex_result_out_path)\n"
  ++ chs "  \x7d\n"
  ++ chs "  .codex_result_written <- TRUE\n"
  ++ chs "\x7d\n"
  ++ chs "if (is.null(.codex_exec_error) && !inherits(.codex_exec_result, \"error\") && !is.null(.codex_exec_result)) \x7b\n"
  ++ chs "  if (.codex_capture_output) \x7b\n"
  ++ chs "    dput(list(result = .codex_exec_result, stdout = .codex_captured_stdout, stderr = .codex_captured_stderr), file = .codex_result_out_path)\n"
  ++ chs "  \x7d else \x7b\n"
  ++ chs "    dput(.codex_exec_result, file = .codex_result_out_path)\n"
  ++ chs "  \x7d\n"
  ++ chs "  .codex_result_written <- TRUE\n"
  ++ chs "\x7d\n"

/-- Generated lines 705-715: re-raise of a trapped top-level error, then the
post-execution namespace-leak check.  This text is fixed and always ends the
synthesized fragment. -/
def leak_epilogue : Str :=
  chs "if (!is.null(.codex_exec_error)) \x7b\n"
  ++ chs "  stop(.codex_msg(.codex_exec_error))\n"
  ++ chs "\x7d\n"
  ++ chs ".codex_after <- ls(envir = .GlobalEnv, all.names = TRUE)\n"
  ++ chs ".codex_new <- setdiff(.codex_after, .codex_before)\n"
  ++ chs ".codex_removed <- setdiff(.codex_before, .codex_after)\n"
  ++ chs ".codex_unexpected_new <- setdiff(.codex_new, .codex_allowed_added)\n"
  ++ chs ".codex_unexpected_removed <- setdiff(.codex_removed, character(0))\n"
  ++ chs "if (length(.codex_unexpected_new) > 0 || length(.codex_unexpected_removed) > 0) \x7b\n"
  ++ chs "  stop(\"Global environment leak detected\")\n"
  ++ chs "\x7d\n"

/-- Embedding of `build_r_code` (lines 575-716). -/
def build_r_code (st : State) (ctx : SendContext) : Except Str Str :=
  match build_create_lines st.create_global_specs [] with
  | .error e => .error e
  | .ok (r_create_lines, r_create_names) =>
    let r_exec := r_exec_lines st ctx.state_export_path
    let r_modify_lines := st.modify_global_snippets.map modify_line
    let r_allowed_added := joinSep (chs ",") (r_create_names.map quoteName)
    let out_escaped := if ctx.expect_result then escape_for_r_string ctx.out_path else []
    .ok (code_prologue r_allowed_added out_escaped st.capture_output
      ++ run_core_block (join_lines r_exec) (join_lines r_create_lines)
           (join_lines r_modify_lines)
      ++ msg_exec_block
      ++ (if ctx.expect_result then result_section else [])
      ++ leak_epilogue)

/-- The dispatch-then-synthesize order of `send_current_state` (lines
761-768): validation runs strictly before `build_r_code`; the intervening
session resolution and every later transport step are external effects. -/
def send_pipeline (st : State) (tmp_out tmp_state : Str) : Except Str Str :=
  match validate_state_for_send st tmp_out tmp_state with
  | .error e => .error e
  | .ok ctx => build_r_code st ctx

/-- Embedding of the exit-status classification of `run_rpc_send`
(lines 743-747): the transport subprocess returncode is mapped to the value
`run_rpc_send` returns. -/
def run_rpc_send (returncode : Nat) : Nat :=
  if returncode = 124 || returncode = 137 then 124 else returncode

/-- The post-build portion of `send_current_state` (lines 806-827): the
mapped transport code is checked before the poll loop; the poll phase itself
is externalized as `poll_phase`. -/
def send_after_build (returncode : Nat) (poll_phase : Except Str Unit) :
    Except Str Unit :=
  let rc := run_rpc_send returncode
  if rc ≠ 0 then .error (chs "Failed to send RPC request.")
  else poll_phase

/-- Control actions returned by `apply_input_line` (`"send"` / `"quit"`). -/
inductive ReplAction
  | send
  | quitLoop
deriving DecidableEq, Repr

/-- Embedding of `apply_input_line` (lines 891-965): parses one REPL line,
validates, and returns the mutated state plus an optional control action. -/
def apply_input_line (st : State) (line : Str) : Except Str (State × Option ReplAction) :=
  let normalized := trim line
  if normalized.isEmpty then .ok (st, none)
  else if normalized = chs "help" || normalized = chs "?" then .ok (st, none)
  else if normalized = chs "show" then .ok (st, none)
  else if normalized = chs "clear" then .ok (st.clear_capabilities, none)
  else if normalized = chs "send" then .ok (st, some .send)
  else if normalized = chs "quit" || normalized = chs "exit" then .ok (st, some .quitLoop)
  else
    match splitFirst (chs ":") line with
    | none => .error (chs "Input must be prefix:payload or a control command.")
    | some (pfx, payload) =>
      let key := lowerStr (trim pfx)
      if key = chs "append" || key = chs "append-code" then
        match validate_append_snippet payload with
        | .error e => .error e
        | .ok _ => .ok ({ st with append_code_snippets := st.append_code_snippets ++ [payload] }, none)
      else if key = chs "result" || key = chs "set-result-expr" then
        match validate_result_expr payload with
        | .error e => .error e
        | .ok _ => .ok ({ st with result_expr := payload }, none)
      else if key = chs "export" || key = chs "r-state-export" then
        match validate_state_export_expr payload with
        | .error e => .error e
        | .ok _ => .ok ({ st with state_export_expr := payload }, none)
      else if key = chs "create" || key = chs "create-global-variable" then
        match validate_name_expr_spec payload (chs "create") with
        | .error e => .error e
        | .ok _ => .ok ({ st with create_global_specs := st.create_global_specs ++ [payload] }, none)
      else if key = chs "modify" || key = chs "modify-global-env" then
        match validate_modify_global_snippet payload with
        | .error e => .error e
        | .ok _ => .ok ({ st with modify_global_snippets := st.modify_global_snippets ++ [payload] }, none)
      else if key = chs "session-dir" then .ok ({ st with session_dir := trim payload }, none)
      else if key = chs "id" then
        if ensure_int_string (trim payload) then .ok ({ st with request_id := trim payload }, none)
        else .error (chs "id must be an integer.")
      else if key = chs "rpostback-bin" then .ok ({ st with rpostback_bin := trim payload }, none)
      else if key = chs "out" then .ok ({ st with out_path := trim payload }, none)
      else if key = chs "timeout" then
        if ensure_int_string (trim payload) then .ok ({ st with timeout_seconds := trim payload }, none)
        else .error (chs "timeout must be an integer.")
      else if key = chs "rpc-timeout" then
        if ensure_int_string (trim payload) then .ok ({ st with rpc_timeout_seconds := trim payload }, none)
        else .error (chs "rpc-timeout must be an integer.")
      else if key = chs "benchmark" then
        match parse_bool payload with
        | .error e => .error e
        | .ok b => .ok ({ st with benchmark_mode := b }, none)
      else if key = chs "benchmark-unit" then
        if trim payload = chs "seconds" || trim payload = chs "ms" then
          .ok ({ st with benchmark_unit := trim payload }, none)
        else .error (chs "benchmark-unit must be either seconds or ms.")
      else if key = chs "print-code" then
        match parse_bool payload with
        | .error e => .error e
        | .ok b => .ok ({ st with print_code := b }, none)
      else if key = chs "capture-output" then
        match parse_bool payload with
        | .error e => .error e
        | .ok b => .ok ({ st with capture_output := b }, none)
      else .error (chs "Unknown input prefix.")

/-- One turn of the REPL loop (lines 987-1001) for a non-control or `send`
line.  The dispatch attempt of a `send` is externalized as `send_outcome`; the
`try/finally` of lines 992-997 clears the capability state regardless of that
outcome. -/
def repl_turn (st : State) (line : Str) (send_outcome : Except Str Unit) : State :=
  match apply_input_line st line with
  | .error _ => st
  | .ok (st2, some .send) =>
    match send_outcome with
    | .error _ => st2.clear_capabilities
    | .ok _ => st2.clear_capabilities
  | .ok (st2, _) => st2

/-- Embedding of the cause-tag computation of `diagnose_result_wait_timeout`
(lines 355-365).  The probed session facts (the trimmed executing flag, the
result-file existence and size, the classified pid state, the abend marker)
are externalized as inputs. -/
def diagnose_causes (executing_value : Str) (out_exists : Bool) (out_size : Nat)
    (pid_state : Str) (abend_value : Str) : List Str :=
  let causes : List Str :=
    (if executing_value = chs "1" then [chs "compute_still_running"] else [])
    ++ (if out_exists && out_size = 0 && !(executing_value = chs "1") then
          [chs "handoff_or_write_delay"] else [])
    ++ (if !out_exists then [chs "output_path_unavailable"] else [])
    ++ (if (pid_state = chs "dead_or_not_rsession" || pid_state = chs "invalid")
          || abend_value = chs "1" then [chs "session_liveness_issue"] else [])
  if causes.isEmpty then [chs "unknown"] else causes

/-- R `setdiff(a, b)`: the deduplicated elements of `a` not in `b`, as used
by the generated leak check (lines 709-712). -/
def r_setdiff (a b : List Str) : List Str :=
  (a.filter fun x => decide (x ∉ b)).dedup

/-- Semantics of the generated namespace-leak check (lines 708-715): given
the before and after snapshots of the global namespace and the allowed
(declared `Create`) names, does the generated fragment reach
`stop("Global environment leak detected")`? -/
def leak_detected (before after allowed : List Str) : Bool :=
  let codex_new := r_setdiff after before
  let codex_removed := r_setdiff before after
  let unexpected_new := r_setdiff codex_new allowed
  let unexpected_removed := r_setdiff codex_removed []
  !unexpected_new.isEmpty || !unexpected_removed.isEmpty

/-- Semantics of the generated benchmark lines 586-591: the trapped timed
evaluation yields either an error or the elapsed time in seconds; the value
reported is scaled by 1000 exactly when the unit is `ms` and the measurement
is not an error (R doubles are modelled as rationals). -/
def bench_reported (unit : Str) (measured : Except Str ℚ) : Except Str ℚ :=
  match measured with
  | .error e => .error e
  | .ok t => .ok (if unit = chs "ms" then t * 1000 else t)

/-- A concrete append-only request state used to exercise the synthesizer. -/
def c4_state : State := { append_code_snippets := [chs "1+1"] }

/-- The send context produced for `c4_state` by `validate_state_for_send`. -/
def c4_ctx : SendContext := ⟨false, [], false, [], true⟩

/-- The fragment `build_r_code` synthesizes for `c4_state`. -/
def c4_code : Str :=
  code_prologue [] [] false
    ++ run_core_block (join_lines [chs "1+1"]) (join_lines []) (join_lines [])
    ++ msg_exec_block ++ leak_epilogue

/-! Substring lemmas for the `Str` embedding. -/

theorem hasPre_iff (p : Str) : ∀ l, hasPre p l = true ↔ ∃ t, l = p ++ t := by
  induction p with
  | nil => intro l; simp [hasPre]
  | cons a p ih =>
    intro l
    cases l with
    | nil =>
      simp only [hasPre, List.cons_append]
      constructor
      · intro h; cases h
      · rintro ⟨t, ht⟩; cases ht
    | cons b t =>
      by_cases hab : a = b
      · subst hab
        simp [hasPre, ih]
      · simp only [hasPre, if_neg hab, List.cons_append]
        constructor
        · intro h; cases h
        · rintro ⟨t', ht⟩
          injection ht with h1 _
          exact absurd h1.symm hab

theorem listHas_iff (hay : Str) : ∀ n, listHas hay n = true ↔ ∃ a b, hay = a ++ (n ++ b) := by
  induction hay with
  | nil =>
    intro n
    simp only [listHas]
    constructor
    · intro h
      obtain ⟨t, ht⟩ := (hasPre_iff n []).mp h
      exact ⟨[], t, ht⟩
    · rintro ⟨a, b, h⟩
      have h' : a ++ (n ++ b) = [] := h.symm
      have h2 := (List.append_eq_nil.mp h').2
      exact (hasPre_iff n []).mpr ⟨b, h2.symm⟩
  | cons c t ih =>
    intro n
    simp only [listHas, Bool.or_eq_true]
    constructor
    · rintro (h | h)
      · obtain ⟨r, hr⟩ := (hasPre_iff n (c :: t)).mp h
        exact ⟨[], r, by simpa using hr⟩
      · obtain ⟨a, b, hab⟩ := (ih n).mp h
        exact ⟨c :: a, b, by simp [hab]⟩
    · rintro ⟨a, b, hab⟩
      cases a with
      | nil =>
        left
        exact (hasPre_iff n (c :: t)).mpr ⟨b, by simpa using hab⟩
      | cons a0 a' =>
        right
        injection hab with _ h2
        exact (ih n).mpr ⟨a', b, h2⟩

theorem listHas_of_parts (a n b : Str) : listHas (a ++ (n ++ b)) n = true :=
  (listHas_iff _ _).mpr ⟨a, b, rfl⟩

theorem listHas_append_left {a n : Str} (b : Str) (h : listHas a n = true) :
    listHas (a ++ b) n = true := by
  obtain ⟨x, y, hxy⟩ := (listHas_iff _ _).mp h
  exact (listHas_iff _ _).mpr ⟨x, y ++ b, by simp [hxy, List.append_assoc]⟩

theorem listHas_append_right {b n : Str} (a : Str) (h : listHas b n = true) :
    listHas (a ++ b) n = true := by
  obtain ⟨x, y, hxy⟩ := (listHas_iff _ _).mp h
  exact (listHas_iff _ _).mpr ⟨a ++ x, y, by simp [hxy, List.append_assoc]⟩

theorem listHas_trans {l m n : Str} (hlm : listHas l m = true) (hmn : listHas m n = true) :
    listHas l n = true := by
  obtain ⟨a, b, hab⟩ := (listHas_iff _ _).mp hlm
  obtain ⟨c, d, hcd⟩ := (listHas_iff _ _).mp hmn
  exact (listHas_iff _ _).mpr ⟨a ++ c, d ++ b, by simp [hab, hcd, List.append_assoc]⟩

theorem listHas_nil_iff {n : Str} : listHas [] n = true ↔ n = [] := by
  cases n <;> simp [listHas, hasPre]

theorem listHas_cons {c : Char} {t n : Str} (h : listHas t n = true) :
    listHas (c :: t) n = true := by
  simp [listHas, h]

theorem mem_of_listHas {hay n : Str} (h : listHas hay n = true) : ∀ c ∈ n, c ∈ hay := by
  obtain ⟨a, b, hab⟩ := (listHas_iff _ _).mp h
  intro c hc
  rw [hab]
  simp [hc]

theorem listHas_append_cases {a b n : Str} (h : listHas (a ++ b) n = true) :
    listHas a n = true ∨ listHas b n = true ∨
      ∃ x y, n = x ++ y ∧ x ≠ [] ∧ y ≠ [] ∧ (∃ a0, a = a0 ++ x) ∧ ∃ b0, b = y ++ b0 := by
  obtain ⟨p, q, hpq⟩ := (listHas_iff _ _).mp h
  rcases List.append_eq_append_iff.mp hpq with ⟨a', _, hb⟩ | ⟨c', ha, hq⟩
  · right; left
    exact (listHas_iff _ _).mpr ⟨a', q, hb⟩
  · rcases List.append_eq_append_iff.mp hq.symm with ⟨e, hne, hbe⟩ | ⟨e, hce, hqe⟩
    · cases hc : c' with
      | nil =>
        right; left
        refine (listHas_iff _ _).mpr ⟨[], q, ?_⟩
        rw [hbe, hne, hc]
        simp
      | cons u c'' =>
        cases he : e with
        | nil =>
          left
          refine (listHas_iff _ _).mpr ⟨p, [], ?_⟩
          rw [ha, hne, he]
          simp
        | cons v e' =>
          right; right
          refine ⟨c', e, hne, by rw [hc]; simp, by rw [he]; simp, ⟨p, ha⟩, ⟨q, hbe⟩⟩
    · left
      exact (listHas_iff _ _).mpr ⟨p, e, by rw [ha, hce]⟩

theorem last_mem_suffix {a0 x a1 : Str} {ch : Char} (h : a0 ++ x = a1 ++ [ch]) (hx : x ≠ []) :
    ch ∈ x := by
  have h' := congrArg List.reverse h
  simp only [List.reverse_append, List.reverse_cons, List.reverse_nil, List.nil_append,
    List.cons_append] at h'
  cases hxr : x.reverse with
  | nil =>
    have : x = [] := by
      have := congrArg List.reverse hxr
      simpa using this
    exact absurd this hx
  | cons c xs =>
    rw [hxr] at h'
    injection h' with h1 _
    have hc : c ∈ x.reverse := by rw [hxr]; exact List.mem_cons_self _ _
    rw [h1] at hc
    exact List.mem_reverse.mp hc

theorem listHas_single {ch : Char} {n : Str} (h : listHas [ch] n = true) :
    n = [] ∨ n = [ch] := by
  cases n with
  | nil => exact Or.inl rfl
  | cons c t =>
    right
    by_cases hc : c = ch
    · subst hc
      cases t with
      | nil => rfl
      | cons d r => simp [listHas, hasPre] at h
    · simp [listHas, hasPre, hc] at h

theorem listHas_append_nl {a b n : Str} (hnl : '\n' ∉ n)
    (ha : ∃ a0, a = a0 ++ ['\n']) (h : listHas (a ++ b) n = true) :
    listHas a n = true ∨ listHas b n = true := by
  rcases listHas_append_cases h with h1 | h1 | ⟨x, y, hxy, hx, _, ⟨a0, ha0⟩, _⟩
  · exact Or.inl h1
  · exact Or.inr h1
  · exfalso
    obtain ⟨a1, ha1⟩ := ha
    have : '\n' ∈ x := last_mem_suffix (ha0 ▸ ha1 : a0 ++ x = a1 ++ ['\n']) hx
    exact hnl (by rw [hxy]; exact List.mem_append_left _ this)

theorem listHas_snoc_nl {s n : Str} (hn : n ≠ []) (hnl : '\n' ∉ n)
    (h : listHas (s ++ ['\n']) n = true) : listHas s n = true := by
  rcases listHas_append_cases h with h1 | h1 | ⟨x, y, hxy, _, hy, _, ⟨b0, hb0⟩⟩
  · exact h1
  · rcases listHas_single h1 with h2 | h2
    · exact absurd h2 hn
    · exact absurd (by rw [h2]; exact List.mem_cons_self _ _) hnl
  · exfalso
    cases hyy : y with
    | nil => exact hy hyy
    | cons v y' =>
      rw [hyy] at hb0
      injection hb0 with h1 _
      apply hnl
      rw [hxy, hyy, ← h1]
      exact List.mem_append_right _ (List.mem_cons_self _ _)

theorem listHas_line_piece {ind l n : Str} (hn : n ≠ []) (hnl : '\n' ∉ n) (hsp : ' ' ∉ n)
    (hind : ∀ c ∈ ind, c = ' ') (h : listHas (ind ++ (l ++ ['\n'])) n = true) :
    listHas l n = true := by
  rcases listHas_append_cases h with h1 | h1 | ⟨x, y, hxy, hx, _, ⟨a0, ha0⟩, _⟩
  · exfalso
    cases hnn : n with
    | nil => exact hn hnn
    | cons c t =>
      have hcmem : c ∈ ind := mem_of_listHas h1 c (by rw [hnn]; exact List.mem_cons_self _ _)
      have : c = ' ' := hind c hcmem
      exact hsp (by rw [hnn, this]; exact List.mem_cons_self _ _)
  · exact listHas_snoc_nl hn hnl h1
  · exfalso
    cases hxx : x with
    | nil => exact hx hxx
    | cons u x' =>
      have humem : u ∈ ind := by
        rw [ha0, hxx]
        exact List.mem_append_right _ (List.mem_cons_self _ _)
      have hu : u = ' ' := hind u humem
      apply hsp
      rw [hxy, hxx, ← hu]
      exact List.mem_append_left _ (List.mem_cons_self _ _)

theorem listHas_concat_pieces {ind n : Str} (hn : n ≠ []) (hnl : '\n' ∉ n) (hsp : ' ' ∉ n)
    (hind : ∀ c ∈ ind, c = ' ') :
    ∀ lines : List Str,
      listHas (concatAll (lines.map fun l => ind ++ (l ++ ['\n']))) n = true →
      ∃ l ∈ lines, listHas l n = true := by
  intro lines
  induction lines with
  | nil =>
    intro h
    simp only [List.map_nil, concatAll, List.foldr_nil] at h
    exact absurd (listHas_nil_iff.mp h) hn
  | cons l0 ls ih =>
    intro h
    rw [List.map_cons] at h
    have hstep : concatAll ((ind ++ (l0 ++ ['\n'])) :: (ls.map fun l => ind ++ (l ++ ['\n'])))
        = (ind ++ (l0 ++ ['\n'])) ++ concatAll (ls.map fun l => ind ++ (l ++ ['\n'])) := rfl
    rw [hstep] at h
    have hend : ∃ a0, ind ++ (l0 ++ ['\n']) = a0 ++ ['\n'] :=
      ⟨ind ++ l0, by simp [List.append_assoc]⟩
    rcases listHas_append_nl hnl hend h with h1 | h1
    · exact ⟨l0, List.mem_cons_self _ _, listHas_line_piece hn hnl hsp hind h1⟩
    · obtain ⟨l, hl, hhas⟩ := ih h1
      exact ⟨l, List.mem_cons_of_mem _ hl, hhas⟩

theorem splitNL_ne_nil : ∀ s : Str, splitNL s ≠ [] := by
  intro s
  cases s with
  | nil => simp [splitNL]
  | cons c t =>
    simp only [splitNL]
    by_cases hc : c = '\n'
    · simp [hc]
    · rw [if_neg hc]
      cases splitNL t <;> simp

theorem splitNL_head_pre : ∀ (s h : Str) (r : List Str), splitNL s = h :: r → hasPre h s = true := by
  intro s
  induction s with
  | nil =>
    intro h r hs
    simp only [splitNL] at hs
    injection hs with h1 _
    rw [← h1]
    rfl
  | cons c t ih =>
    intro h r hs
    simp only [splitNL] at hs
    by_cases hc : c = '\n'
    · rw [if_pos hc] at hs
      injection hs with h1 _
      rw [← h1]
      rfl
    · rw [if_neg hc] at hs
      cases ht : splitNL t with
      | nil => exact absurd ht (splitNL_ne_nil t)
      | cons h' r' =>
        rw [ht] at hs
        injection hs with h1 _
        rw [← h1]
        have hp : hasPre h' t = true := ih h' r' ht
        simp [hasPre, hp]

theorem splitNL_mem_listHas : ∀ (s l : Str), l ∈ splitNL s → listHas s l = true := by
  intro s
  induction s with
  | nil =>
    intro l hl
    simp only [splitNL, List.mem_singleton] at hl
    rw [hl]
    rfl
  | cons c t ih =>
    intro l hl
    simp only [splitNL] at hl
    by_cases hc : c = '\n'
    · rw [if_pos hc] at hl
      rcases List.mem_cons.mp hl with h | h
      · rw [h]
        simp [listHas, hasPre]
      · exact listHas_cons (ih l h)
    · rw [if_neg hc] at hl
      cases ht : splitNL t with
      | nil => exact absurd ht (splitNL_ne_nil t)
      | cons h' r' =>
        rw [ht] at hl
        rcases List.mem_cons.mp hl with h | h
        · have hp := splitNL_head_pre t h' r' ht
          rw [h]
          simp [listHas, hasPre, hp]
        · exact listHas_cons (ih l (by rw [ht]; exact List.mem_cons_of_mem _ h))

theorem rstripNL_pre (s : Str) : ∃ rest, s = rstripNL s ++ rest := by
  refine ⟨(s.reverse.takeWhile (fun c => c = '\n')).reverse, ?_⟩
  rw [rstripNL, ← List.reverse_append, List.takeWhile_append_dropWhile, List.reverse_reverse]

theorem indent_block_has {T ind n : Str} (hn : n ≠ []) (hnl : '\n' ∉ n) (hsp : ' ' ∉ n)
    (hind : ∀ c ∈ ind, c = ' ') (h : listHas (indent_block T ind) n = true) :
    listHas T n = true := by
  rw [indent_block] at h
  by_cases hT : T.isEmpty
  · rw [if_pos hT] at h
    exact absurd (listHas_nil_iff.mp h) hn
  · rw [if_neg hT] at h
    obtain ⟨l, hl, hhas⟩ := listHas_concat_pieces hn hnl hsp hind _ h
    have h1 : listHas (rstripNL T) l = true := splitNL_mem_listHas _ _ hl
    have h2 : listHas (rstripNL T) n = true := listHas_trans h1 hhas
    obtain ⟨rest, hr⟩ := rstripNL_pre T
    rw [hr]
    exact listHas_append_left _ h2

theorem join_lines_has {n : Str} (hn : n ≠ []) (hnl : '\n' ∉ n) :
    ∀ ls : List Str, listHas (join_lines ls) n = true → ∃ s ∈ ls, listHas s n = true := by
  intro ls
  induction ls with
  | nil =>
    intro h
    exact absurd (listHas_nil_iff.mp h) hn
  | cons s rest ih =>
    intro h
    have hstep : join_lines (s :: rest) = (s ++ ['\n']) ++ join_lines rest := by
      show s ++ '\n' :: join_lines rest = (s ++ ['\n']) ++ join_lines rest
      simp [List.append_assoc]
    rw [hstep] at h
    rcases listHas_append_nl hnl ⟨s, rfl⟩ h with h1 | h1
    · exact ⟨s, List.mem_cons_self _ _, listHas_snoc_nl hn hnl h1⟩
    · obtain ⟨s', hs', hh⟩ := ih h1
      exact ⟨s', List.mem_cons_of_mem _ hs', hh⟩

theorem listHas_dropWhile_spc {n : Str} (hws : ∀ c ∈ n, isSpc c = false) (hne : n ≠ []) :
    ∀ l : Str, listHas l n = true → listHas (l.dropWhile isSpc) n = true := by
  intro l
  induction l with
  | nil => intro h; exact h
  | cons c t ih =>
    intro h
    by_cases hc : isSpc c = true
    · have hd : (c :: t).dropWhile isSpc = t.dropWhile isSpc := by
        simp [List.dropWhile_cons, hc]
      rw [hd]
      apply ih
      simp only [listHas, Bool.or_eq_true] at h
      rcases h with h | h
      · exfalso
        cases hnn : n with
        | nil => exact hne hnn
        | cons d m =>
          rw [hnn] at h
          simp only [hasPre] at h
          by_cases hdc : d = c
          · have hds : isSpc d = false := hws d (by rw [hnn]; exact List.mem_cons_self _ _)
            rw [hdc] at hds
            rw [hds] at hc
            cases hc
          · rw [if_neg hdc] at h
            cases h
      · exact h
    · have hd : (c :: t).dropWhile isSpc = c :: t := by
        simp [List.dropWhile_cons, hc]
      rw [hd]
      exact h

theorem listHas_reverse {l n : Str} (h : listHas l n = true) :
    listHas l.reverse n.reverse = true := by
  obtain ⟨a, b, hab⟩ := (listHas_iff _ _).mp h
  refine (listHas_iff _ _).mpr ⟨b.reverse, a.reverse, ?_⟩
  rw [hab]
  simp [List.reverse_append, List.append_assoc]

theorem listHas_trim {l n : Str} (hne : n ≠ []) (hws : ∀ c ∈ n, isSpc c = false)
    (h : listHas l n = true) : listHas (trim l) n = true := by
  rw [trim]
  have h1 := listHas_dropWhile_spc hws hne l h
  have h2 := listHas_reverse h1
  have h3 := listHas_dropWhile_spc (n := n.reverse)
    (fun c hc => hws c (List.mem_reverse.mp hc))
    (fun hnil => hne (by simpa using congrArg List.reverse hnil)) _ h2
  have h4 := listHas_reverse h3
  simpa using h4

theorem matchIdent_mem {v : Str} (h : matchIdent v = true) :
    ∀ c ∈ v, (c.isAlpha || c = '.' || isWordChar c) = true := by
  cases v with
  | nil => simp [matchIdent] at h
  | cons c0 rest =>
    simp only [matchIdent, Bool.and_eq_true] at h
    intro c hc
    rcases List.mem_cons.mp hc with rfl | hc
    · simp only [Bool.or_eq_true, decide_eq_true_eq] at h ⊢
      exact Or.inl h.1
    · have hw := (List.all_eq_true.mp h.2) c hc
      simp only [Bool.or_eq_true]
      exact Or.inr hw

theorem validate_assignment_free_ok {code label : Str} {u : Unit}
    (h : validate_assignment_free code label = .ok u) :
    listHas code (chs "<-") = false ∧ listHas code (chs "->") = false := by
  cases hc1 : listHas code (chs "<-") <;> cases hc2 : listHas code (chs "->") <;>
    simp [validate_assignment_free, hc1, hc2] at h ⊢

theorem split_pair {x y : Str} {c1 c2 : Char} (h : x ++ y = [c1, c2]) (hx : x ≠ []) (hy : y ≠ []) :
    x = [c1] ∧ y = [c2] := by
  cases x with
  | nil => exact absurd rfl hx
  | cons a x' =>
    cases x' with
    | nil =>
      injection h with h1 h2
      exact ⟨by rw [h1], h2⟩
    | cons b x'' =>
      injection h with h1 h'
      injection h' with h2 h''
      exact absurd (List.append_eq_nil.mp h'').2 hy

theorem splitFirst_eq {sep : Str} : ∀ {l a b : Str}, splitFirst sep l = some (a, b) →
    l = a ++ (sep ++ b) := by
  intro l
  induction l with
  | nil =>
    intro a b h
    simp only [splitFirst] at h
    by_cases hp : hasPre sep [] = true
    · rw [if_pos hp] at h
      obtain ⟨t, ht⟩ := (hasPre_iff sep []).mp hp
      have hsep : sep = [] := (List.append_eq_nil.mp ht.symm).1
      injection h with hpair
      injection hpair with ha hb
      rw [← ha, ← hb, hsep]
      simp
    · rw [if_neg hp] at h
      cases h
  | cons c t ih =>
    intro a b h
    simp only [splitFirst] at h
    by_cases hp : hasPre sep (c :: t) = true
    · rw [if_pos hp] at h
      obtain ⟨r, hr⟩ := (hasPre_iff sep (c :: t)).mp hp
      injection h with hpair
      injection hpair with ha hb
      rw [← ha, ← hb, hr, List.drop_left]
      simp
    · rw [if_neg hp] at h
      cases hs : splitFirst sep t with
      | none => rw [hs] at h; cases h
      | some p =>
        obtain ⟨a', b'⟩ := p
        rw [hs] at h
        injection h with hpair
        injection hpair with ha hb
        have ht := ih hs
        rw [← ha, ← hb]
        simp [ht]

theorem isEmpty_false_iff {α : Type} (l : List α) : l.isEmpty = false ↔ l ≠ [] := by
  cases l <;> simp

theorem isEmpty_true_iff {α : Type} (l : List α) : l.isEmpty = true ↔ l = [] := by
  cases l <;> simp

theorem head_ne {c d : Char} {x y : Str} (hcd : c ≠ d) : c :: x ≠ d :: y := by
  intro h
  injection h with h1 _
  exact hcd h1

theorem validate_ok_context {st : State} {tmp_out tmp_state : Str} {ctx : SendContext}
    (h : validate_state_for_send st tmp_out tmp_state = .ok ctx) :
    make_send_context st tmp_out tmp_state = .ok ctx := by
  rw [validate_state_for_send] at h
  cases h1 : validate_send_flags st with
  | error e => rw [h1] at h; exact Except.noConfusion h
  | ok u =>
    rw [h1] at h
    cases h2 : validate_send_payloads st with
    | error e => rw [h2] at h; exact Except.noConfusion h
    | ok v => rw [h2] at h; exact h

theorem make_ctx_facts {st : State} {tmp_out tmp_state : Str} {ctx : SendContext}
    (h : make_send_context st tmp_out tmp_state = .ok ctx) :
    ctx.expect_result = (!st.result_expr.isEmpty || !st.state_export_expr.isEmpty) ∧
    (st.capture_output && !(!st.result_expr.isEmpty || !st.state_export_expr.isEmpty))
      = false := by
  rw [make_send_context] at h
  by_cases hc : (st.capture_output
      && !(!st.result_expr.isEmpty || !st.state_export_expr.isEmpty)) = true
  · rw [if_pos hc] at h
    exact Except.noConfusion h
  · rw [if_neg hc] at h
    injection h with h1
    refine ⟨?_, ?_⟩
    · rw [← h1]
    · cases hcc : (st.capture_output
          && !(!st.result_expr.isEmpty || !st.state_export_expr.isEmpty)) with
      | false => rfl
      | true => exact absurd hcc hc

theorem mem_r_setdiff {x : Str} {a b : List Str} : x ∈ r_setdiff a b ↔ x ∈ a ∧ x ∉ b := by
  simp [r_setdiff, List.mem_dedup, List.mem_filter]

theorem r_setdiff_nonempty {a b : List Str} :
    (!(r_setdiff a b).isEmpty) = true ↔ ∃ x ∈ a, x ∉ b := by
  constructor
  · intro h
    have hne : r_setdiff a b ≠ [] := by
      intro hnil
      rw [hnil] at h
      simp at h
    obtain ⟨x, hx⟩ := List.exists_mem_of_ne_nil _ hne
    obtain ⟨h1, h2⟩ := mem_r_setdiff.mp hx
    exact ⟨x, h1, h2⟩
  · rintro ⟨x, hx, hnb⟩
    have hmem : x ∈ r_setdiff a b := mem_r_setdiff.mpr ⟨hx, hnb⟩
    have hne : r_setdiff a b ≠ [] := List.ne_nil_of_mem hmem
    cases h : (r_setdiff a b).isEmpty with
    | true => exact absurd ((isEmpty_true_iff _).mp h) hne
    | false => rfl

/-- C1: the post-execution namespace check of the synthesized fragment stops
with the leak error exactly when the global namespace gained a name that is
neither pre-existing nor a declared `Create` name, or lost any name; and every
successfully synthesized fragment ends with that check. -/
theorem claim_C1 :
    (∀ before after allowed : List Str,
      leak_detected before after allowed = true ↔
        (∃ x ∈ after, x ∉ before ∧ x ∉ allowed) ∨ ∃ x ∈ before, x ∉ after) ∧
    ∀ (st : State) (ctx : SendContext),
      (∃ e, build_r_code st ctx = .error e) ∨
        ∃ p, build_r_code st ctx = .ok (p ++ leak_epilogue) := by
  constructor
  · intro before after allowed
    simp only [leak_detected, Bool.or_eq_true, r_setdiff_nonempty]
    constructor
    · rintro (⟨x, hx, hxn⟩ | ⟨x, hx, _⟩)
      · obtain ⟨h1, h2⟩ := mem_r_setdiff.mp hx
        exact Or.inl ⟨x, h1, h2, hxn⟩
      · obtain ⟨h1, h2⟩ := mem_r_setdiff.mp hx
        exact Or.inr ⟨x, h1, h2⟩
    · rintro (⟨x, h1, h2, h3⟩ | ⟨x, h1, h2⟩)
      · exact Or.inl ⟨x, mem_r_setdiff.mpr ⟨h1, h2⟩, h3⟩
      · exact Or.inr ⟨x, mem_r_setdiff.mpr ⟨h1, h2⟩, List.not_mem_nil x⟩
  · intro st ctx
    cases h : build_create_lines st.create_global_specs [] with
    | error e =>
      left
      exact ⟨e, by simp only [build_r_code, h]⟩
    | ok pr =>
      right
      obtain ⟨cl, cn⟩ := pr
      refine ⟨code_prologue (joinSep (chs ",") (cn.map quoteName))
          (if ctx.expect_result then escape_for_r_string ctx.out_path else [])
          st.capture_output
        ++ run_core_block (join_lines (r_exec_lines st ctx.state_export_path)) (join_lines cl)
             (join_lines (st.modify_global_snippets.map modify_line))
        ++ msg_exec_block
        ++ (if ctx.expect_result then result_section else []), ?_⟩
      simp only [build_r_code, h]

/-- C3: a request state with the export expression set together with a result
expression, create specs, or modify snippets is rejected by send validation
with the exclusivity error, and the validate-then-synthesize pipeline stops
with that same error, never reaching `build_r_code`. -/
theorem claim_C3 (st : State) (tmp_out tmp_state : Str)
    (hexp : st.state_export_expr ≠ [])
    (hother : st.result_expr ≠ [] ∨ st.create_global_specs ≠ [] ∨
      st.modify_global_snippets ≠ []) :
    validate_state_for_send st tmp_out tmp_state
        = .error (chs "export cannot be combined with result, create, or modify.") ∧
    send_pipeline st tmp_out tmp_state
        = .error (chs "export cannot be combined with result, create, or modify.") := by
  have he : st.state_export_expr.isEmpty = false := (isEmpty_false_iff _).mpr hexp
  have hval : validate_state_for_send st tmp_out tmp_state
      = .error (chs "export cannot be combined with result, create, or modify.") := by
    rcases hother with h | h | h <;>
      simp [validate_state_for_send, validate_send_flags, he, (isEmpty_false_iff _).mpr h]
  exact ⟨hval, by simp [send_pipeline, hval]⟩

theorem claim_C3_witness :
    validate_state_for_send { state_export_expr := chs "x", result_expr := chs "y" } [] []
        = .error (chs "export cannot be combined with result, create, or modify.") ∧
    send_pipeline { state_export_expr := chs "x", result_expr := chs "y" } [] []
        = .error (chs "export cannot be combined with result, create, or modify.") :=
  claim_C3 _ [] [] (by decide) (Or.inl (by decide))

/-- C5: a transport subprocess exit status of 124 or 137 is classified as a
timeout (mapped to the 124 return), and the send then fails with the RPC
error before the result-polling phase can contribute to the outcome. -/
theorem claim_C5 (rc : Nat) (poll : Except Str Unit) (h : rc = 124 ∨ rc = 137) :
    run_rpc_send rc = 124 ∧
      send_after_build rc poll = .error (chs "Failed to send RPC request.") := by
  rcases h with rfl | rfl <;> exact ⟨rfl, rfl⟩

theorem claim_C5_witness :
    run_rpc_send 124 = 124 ∧
      send_after_build 124 (Except.ok ()) = .error (chs "Failed to send RPC request.") :=
  claim_C5 124 (Except.ok ()) (Or.inl rfl)

/-- C6: a `send` line always leaves the REPL state with all five capability
collections cleared, whatever the outcome of the dispatch attempt. -/
theorem claim_C6 (st : State) (line : Str) (outcome : Except Str Unit)
    (h : trim line = chs "send") :
    apply_input_line st line = .ok (st, some ReplAction.send) ∧
    repl_turn st line outcome = st.clear_capabilities ∧
    (repl_turn st line outcome).append_code_snippets = [] ∧
    (repl_turn st line outcome).result_expr = [] ∧
    (repl_turn st line outcome).state_export_expr = [] ∧
    (repl_turn st line outcome).create_global_specs = [] ∧
    (repl_turn st line outcome).modify_global_snippets = [] := by
  have happly : apply_input_line st line = .ok (st, some ReplAction.send) := by
    simp only [apply_input_line, h]
    rfl
  have hrepl : repl_turn st line outcome = st.clear_capabilities := by
    rw [repl_turn, happly]
    cases outcome <;> rfl
  exact ⟨happly, hrepl, by rw [hrepl]; rfl, by rw [hrepl]; rfl, by rw [hrepl]; rfl,
    by rw [hrepl]; rfl, by rw [hrepl]; rfl⟩

theorem claim_C6_witness :
    repl_turn ({ result_expr := chs "1+1" } : State) (chs "send")
        (Except.error (chs "boom"))
      = ({ result_expr := chs "1+1" } : State).clear_capabilities :=
  (claim_C6 ({ result_expr := chs "1+1" } : State) (chs "send")
    (Except.error (chs "boom")) rfl).2.1

/-- C10: the timeout diagnoser always emits at least one cause tag, emits
`unknown` only alone (exactly when no other tag applies), and can never emit
`compute_still_running` together with `handoff_or_write_delay`. -/
theorem claim_C10 (executing : Str) (out_exists : Bool) (out_size : Nat)
    (pid_state abend : Str) :
    (diagnose_causes executing out_exists out_size pid_state abend).isEmpty = false ∧
    (diagnose_causes executing out_exists out_size pid_state abend = [chs "unknown"] ∨
      (diagnose_causes executing out_exists out_size pid_state abend).contains
        (chs "unknown") = false) ∧
    ((diagnose_causes executing out_exists out_size pid_state abend).contains
        (chs "compute_still_running")
      && (diagnose_causes executing out_exists out_size pid_state abend).contains
        (chs "handoff_or_write_delay")) = false := by
  simp only [diagnose_causes]
  split_ifs <;> simp_all <;> decide

/-- C9: a request with the capture-output flag set but neither result nor
export expression set always fails send validation, and the validate-then-
synthesize pipeline stops with that validation error (an undocumented
precondition of the capture-output option). -/
theorem claim_C9 (st : State) (tmp_out tmp_state : Str)
    (hcap : st.capture_output = true) (hres : st.result_expr = [])
    (hexp : st.state_export_expr = []) :
    ∃ e, validate_state_for_send st tmp_out tmp_state = .error e ∧
      send_pipeline st tmp_out tmp_state = .error e := by
  cases hv : validate_state_for_send st tmp_out tmp_state with
  | error e => exact ⟨e, rfl, by simp [send_pipeline, hv]⟩
  | ok ctx =>
    exfalso
    have h2 := (make_ctx_facts (validate_ok_context hv)).2
    rw [hcap, hres, hexp] at h2
    exact absurd h2 (by decide)

theorem claim_C9_witness :
    ∃ e, validate_state_for_send
        { append_code_snippets := [chs "1+1"], capture_output := true } [] [] = .error e ∧
      send_pipeline
        { append_code_snippets := [chs "1+1"], capture_output := true } [] [] = .error e :=
  claim_C9 { append_code_snippets := [chs "1+1"], capture_output := true } [] [] rfl rfl rfl

theorem assignment_free_err {code label : Str}
    (h : listHas code (chs "<-") = true ∨ listHas code (chs "->") = true) :
    isErr (validate_assignment_free code label) = true := by
  rw [validate_assignment_free]
  rcases h with h | h
  · rw [if_pos h]; rfl
  · by_cases h2 : listHas code (chs "<-") = true
    · rw [if_pos h2]; rfl
    · rw [if_neg h2, if_pos h]; rfl

theorem matchIdent_arrow_false {v : Str}
    (h : listHas v (chs "<-") = true ∨ listHas v (chs "->") = true) :
    matchIdent v = false := by
  cases hm : matchIdent v with
  | false => rfl
  | true =>
    exfalso
    rcases h with h | h
    · have hmem : '<' ∈ v := mem_of_listHas h '<' (by decide)
      exact absurd (matchIdent_mem hm '<' hmem) (by decide)
    · have hmem : '-' ∈ v := mem_of_listHas h '-' (by decide)
      exact absurd (matchIdent_mem hm '-' hmem) (by decide)

theorem trim_arrow {l : Str}
    (h : listHas l (chs "<-") = true ∨ listHas l (chs "->") = true) :
    listHas (trim l) (chs "<-") = true ∨ listHas (trim l) (chs "->") = true := by
  rcases h with h | h
  · exact Or.inl (listHas_trim (by decide) (by decide) h)
  · exact Or.inr (listHas_trim (by decide) (by decide) h)

theorem arrow_through_sep {np ep : Str} {c1 c2 : Char}
    (hc1 : c1 ≠ ':' ∧ c1 ≠ '=') (hc2 : c2 ≠ ':' ∧ c2 ≠ '=')
    (h : listHas (np ++ (chs ":=" ++ ep)) [c1, c2] = true) :
    listHas np [c1, c2] = true ∨ listHas ep [c1, c2] = true := by
  rcases listHas_append_cases h with h1 | h1 | ⟨x, y, hxy, hx, hy, _, ⟨b0, hb0⟩⟩
  · exact Or.inl h1
  · rcases listHas_append_cases h1 with h2 | h2 | ⟨x, y, hxy, hx, hy, ⟨a0, ha0⟩, _⟩
    · exfalso
      have hm : c1 ∈ chs ":=" := mem_of_listHas h2 c1 (List.mem_cons_self _ _)
      have hz : chs ":=" = [':', '='] := rfl
      rw [hz] at hm
      rcases List.mem_cons.mp hm with h3 | h3
      · exact hc1.1 h3
      · rcases List.mem_cons.mp h3 with h4 | h4
        · exact hc1.2 h4
        · cases h4
    · exact Or.inr h2
    · exfalso
      obtain ⟨hx1, _⟩ := split_pair hxy.symm hx hy
      rw [hx1] at ha0
      have hlast := congrArg List.getLast? ha0
      rw [List.getLast?_concat] at hlast
      have hz : (chs ":=").getLast? = some '=' := rfl
      rw [hz] at hlast
      injection hlast with hlast2
      exact hc1.2 hlast2.symm
  · exfalso
    obtain ⟨_, hy1⟩ := split_pair hxy.symm hx hy
    rw [hy1] at hb0
    have hhead : ':' :: (chs "=" ++ ep) = c2 :: b0 := hb0
    injection hhead with hh _
    exact hc2.1 hh.symm

theorem arrow_split {np ep code : Str} (hcode : code = np ++ (chs ":=" ++ ep))
    (h : listHas code (chs "<-") = true ∨ listHas code (chs "->") = true) :
    (listHas np (chs "<-") = true ∨ listHas np (chs "->") = true) ∨
    (listHas ep (chs "<-") = true ∨ listHas ep (chs "->") = true) := by
  subst hcode
  have hL : chs "<-" = ['<', '-'] := rfl
  have hR : chs "->" = ['-', '>'] := rfl
  rcases h with h | h
  · rw [hL] at h
    rcases arrow_through_sep (by decide) (by decide) h with h1 | h1
    · exact Or.inl (Or.inl (by rw [hL]; exact h1))
    · exact Or.inr (Or.inl (by rw [hL]; exact h1))
  · rw [hR] at h
    rcases arrow_through_sep (by decide) (by decide) h with h1 | h1
    · exact Or.inl (Or.inr (by rw [hR]; exact h1))
    · exact Or.inr (Or.inr (by rw [hR]; exact h1))

theorem arrow_ne_nil {l : Str}
    (h : listHas l (chs "<-") = true ∨ listHas l (chs "->") = true) : l ≠ [] := by
  intro hz
  subst hz
  rcases h with h | h <;> exact absurd (listHas_nil_iff.mp h) (by decide)

/-- C2 counterexample: the append and modify validators accept a fragment
containing the single left-arrow assignment token, so the claim that every
role rejects such fragments is false on the code. -/
theorem claim_C2_counterexample :
    listHas (chs "x <- 1") (chs "<-") = true ∧
    validate_append_snippet (chs "x <- 1") = .ok () ∧
    validate_modify_global_snippet (chs "x <- 1") = .ok () :=
  ⟨rfl, rfl, rfl⟩

/-- C2 (amended): a fragment containing a single left- or right-arrow
assignment token is rejected by the result-expression, export-expression and
create-spec validators; the append and modify validators run only the common
blocklist, which rejects the double-arrow assignment operators. -/
theorem claim_C2_amended (code label : Str)
    (h : listHas code (chs "<-") = true ∨ listHas code (chs "->") = true) :
    isErr (validate_result_expr code) = true ∧
    isErr (validate_state_export_expr code) = true ∧
    isErr (validate_name_expr_spec code label) = true ∧
    ∀ code2 : Str,
      listHas code2 (chs "<<-") = true ∨ listHas code2 (chs "->>") = true →
      isErr (validate_append_snippet code2) = true ∧
      isErr (validate_modify_global_snippet code2) = true := by
  have hblock : ∀ code2 label2 : Str,
      listHas code2 (chs "<<-") = true ∨ listHas code2 (chs "->>") = true →
      isErr (validate_common_blocklist code2 label2) = true := by
    intro code2 label2 h2
    rw [validate_common_blocklist]
    rcases h2 with h2 | h2
    · rw [if_pos h2]; rfl
    · by_cases h3 : listHas code2 (chs "<<-") = true
      · rw [if_pos h3]; rfl
      · rw [if_neg h3, if_pos h2]; rfl
  refine ⟨?_, ?_, ?_, ?_⟩
  · rw [validate_result_expr]
    by_cases h1 : (trim code).isEmpty = true
    · rw [if_pos h1]; rfl
    · rw [if_neg h1]
      by_cases h2 : code.contains '\n' = true
      · rw [if_pos h2]; rfl
      · rw [if_neg h2]
        cases hb : validate_common_blocklist code (chs "Result expression") with
        | error e => rfl
        | ok u => exact assignment_free_err h
  · rw [validate_state_export_expr]
    by_cases h1 : (trim code).isEmpty = true
    · rw [if_pos h1]; rfl
    · rw [if_neg h1]
      by_cases h2 : code.contains '\n' = true
      · rw [if_pos h2]; rfl
      · rw [if_neg h2]
        cases hb : validate_common_blocklist code (chs "R_STATE_EXPORT expression") with
        | error e => rfl
        | ok u => exact assignment_free_err h
  · cases hs : splitFirst (chs ":=") code with
    | none => simp only [validate_name_expr_spec, hs]; rfl
    | some q =>
      obtain ⟨np, ep⟩ := q
      have hcode := splitFirst_eq hs
      simp only [validate_name_expr_spec, hs]
      rcases arrow_split hcode h with hnp | hep
      · -- the arrow sits in the name part, so the identifier check fails
        have htr := trim_arrow hnp
        have hmi : matchIdent (trim np) = false := matchIdent_arrow_false htr
        by_cases hEmpty : ((trim np).isEmpty || (trim ep).isEmpty) = true
        · rw [if_pos hEmpty]; rfl
        · rw [if_neg hEmpty, if_pos (by rw [hmi]; rfl)]; rfl
      · -- the arrow sits in the expression part, so the assignment check fails
        have htr := trim_arrow hep
        by_cases hEmpty : ((trim np).isEmpty || (trim ep).isEmpty) = true
        · rw [if_pos hEmpty]; rfl
        · rw [if_neg hEmpty]
          by_cases hIdent : (!matchIdent (trim np)) = true
          · rw [if_pos hIdent]; rfl
          · rw [if_neg hIdent]
            by_cases hInc : hasIncomplete (trim ep) = true
            · rw [if_pos hInc]; rfl
            · rw [if_neg hInc]
              cases hb : validate_common_blocklist (trim ep) label with
              | error e => rfl
              | ok u =>
                cases ha : validate_assignment_free (trim ep) label with
                | error e => rfl
                | ok v =>
                  exact absurd (assignment_free_err htr) (by rw [ha]; simp [isErr])
  · intro code2 h2
    constructor
    · rw [validate_append_snippet]
      by_cases h1 : (trim code2).isEmpty = true
      · rw [if_pos h1]; rfl
      · rw [if_neg h1]
        cases hb : validate_common_blocklist code2 (chs "Appended code") with
        | error e => rfl
        | ok u => exact absurd (hblock code2 (chs "Appended code") h2) (by rw [hb]; simp [isErr])
    · rw [validate_modify_global_snippet]
      by_cases h1 : (trim code2).isEmpty = true
      · rw [if_pos h1]; rfl
      · rw [if_neg h1]
        cases hb : validate_common_blocklist code2 (chs "Global-modify code") with
        | error e => rfl
        | ok u => exact absurd (hblock code2 (chs "Global-modify code") h2) (by rw [hb]; simp [isErr])

theorem claim_C2_amended_witness :
    isErr (validate_result_expr (chs "x <- 1")) = true ∧
    isErr (validate_state_export_expr (chs "x <- 1")) = true ∧
    isErr (validate_name_expr_spec (chs "x <- 1") (chs "create")) = true ∧
    ∀ code2 : Str,
      listHas code2 (chs "<<-") = true ∨ listHas code2 (chs "->>") = true →
      isErr (validate_append_snippet code2) = true ∧
      isErr (validate_modify_global_snippet code2) = true :=
  claim_C2_amended (chs "x <- 1") (chs "create") (Or.inl rfl)

/-- C8: a `create` spec fails validation when it lacks `:=`, when the trimmed
name or expression side is empty, or when the trimmed name is not an
identifier; and any spec that validates successfully yields exactly the
trimmed (name, expression) pair of its first `:=` split. -/
theorem claim_C8 (spec label : Str) :
    (splitFirst (chs ":=") spec = none → isErr (validate_name_expr_spec spec label) = true) ∧
    (∀ np ep, splitFirst (chs ":=") spec = some (np, ep) →
      (trim np = [] ∨ trim ep = []) → isErr (validate_name_expr_spec spec label) = true) ∧
    (∀ np ep, splitFirst (chs ":=") spec = some (np, ep) →
      matchIdent (trim np) = false → isErr (validate_name_expr_spec spec label) = true) ∧
    ∀ p, validate_name_expr_spec spec label = .ok p →
      ∃ np ep, splitFirst (chs ":=") spec = some (np, ep) ∧ p = (trim np, trim ep) := by
  refine ⟨?_, ?_, ?_, ?_⟩
  · intro h
    simp only [validate_name_expr_spec, h]
    rfl
  · intro np ep hs hempty
    simp only [validate_name_expr_spec, hs]
    have hc : ((trim np).isEmpty || (trim ep).isEmpty) = true := by
      rcases hempty with h | h <;> simp [h]
    rw [if_pos hc]
    rfl
  · intro np ep hs hmi
    simp only [validate_name_expr_spec, hs]
    by_cases hc : ((trim np).isEmpty || (trim ep).isEmpty) = true
    · rw [if_pos hc]; rfl
    · rw [if_neg hc, if_pos (by rw [hmi]; rfl)]; rfl
  · intro p hok
    cases hs : splitFirst (chs ":=") spec with
    | none =>
      rw [validate_name_expr_spec] at hok
      rw [hs] at hok
      cases hok
    | some q =>
      obtain ⟨np, ep⟩ := q
      refine ⟨np, ep, rfl, ?_⟩
      simp only [validate_name_expr_spec, hs] at hok
      repeat' split at hok
      all_goals first
        | exact Except.noConfusion hok
        | (injection hok with h1; exact h1.symm)

theorem claim_C8_witness :
    isErr (validate_name_expr_spec (chs "no-sep-here") (chs "create")) = true ∧
    (∃ np ep, splitFirst (chs ":=") (chs " x := 1+1 ") = some (np, ep) ∧
      ((chs "x", chs "1+1") : Str × Str) = (trim np, trim ep)) :=
  ⟨(claim_C8 (chs "no-sep-here") (chs "create")).1 rfl,
   (claim_C8 (chs " x := 1+1 ") (chs "create")).2.2.2 (chs "x", chs "1+1") rfl⟩

theorem msline_ne_t0 : bench_ms_line ≠ bench_t0_line := by decide

theorem msline_ne_try (expr : Str) : bench_ms_line ≠ bench_try_line expr := by
  intro h
  have hh := congrArg List.head? h
  rw [show (bench_ms_line).head? = some 'i' from rfl,
    show (bench_try_line expr).head? = some '.' from rfl] at hh
  exact absurd hh (by decide)

theorem msline_ne_plain (expr : Str) : bench_ms_line ≠ plain_try_line expr := by
  intro h
  have hh := congrArg List.head? h
  rw [show (bench_ms_line).head? = some 'i' from rfl,
    show (plain_try_line expr).head? = some '.' from rfl] at hh
  exact absurd hh (by decide)

theorem msline_notin_export (expr path : Str) : bench_ms_line ∉ export_lines expr path := by
  intro h
  simp only [export_lines, List.mem_cons, List.not_mem_nil, or_false] at h
  rcases h with h | h | h | h | h | h
  · have hh := congrArg List.head? h
    rw [show (bench_ms_line).head? = some 'i' from rfl,
      show (chs ".codex_state_export_path <- \"" ++ escape_for_r_string path
        ++ chs "\"").head? = some '.' from rfl] at hh
    exact absurd hh (by decide)
  · have hh := congrArg List.head? h
    rw [show (bench_ms_line).head? = some 'i' from rfl,
      show (chs ".codex_state_payload <- (" ++ expr ++ chs ")").head? = some '.' from rfl] at hh
    exact absurd hh (by decide)
  · exact absurd h (by decide)
  · exact absurd h (by decide)
  · exact absurd h (by decide)
  · exact absurd h (by decide)

/-- C7: for the same timed interval the benchmark value with unit `ms` is
exactly 1000 times the `seconds` value: the generated fragment leaves an
error unscaled, multiplies a non-error measurement by 1000 exactly for unit
`ms`, and the scaling instruction is emitted if and only if benchmark mode
with unit `ms` and a result expression are set. -/
theorem claim_C7 :
    (∀ t : ℚ, bench_reported (chs "ms") (Except.ok t) = Except.ok (1000 * t) ∧
      bench_reported (chs "seconds") (Except.ok t) = Except.ok t) ∧
    (∀ u e : Str, bench_reported u (Except.error e) = Except.error e) ∧
    ∀ (st : State) (path : Str), bench_ms_line ∉ st.append_code_snippets →
      (bench_ms_line ∈ r_exec_lines st path ↔
        st.benchmark_mode = true ∧ st.benchmark_unit = chs "ms" ∧ st.result_expr ≠ []) := by
  refine ⟨?_, ?_, ?_⟩
  · intro t
    constructor
    · simp [bench_reported, mul_comm]
    · simp only [bench_reported]
      rw [if_neg (by decide)]
  · intro u e
    rfl
  · intro st path hnot
    constructor
    · intro hmem
      rcases List.mem_append.mp hmem with hmem | hmem
      · rcases List.mem_append.mp hmem with hmem | hmem
        · exact absurd hmem hnot
        · cases hres : st.result_expr.isEmpty with
          | true => revert hmem; simp [hres]
          | false =>
            cases hbm : st.benchmark_mode with
            | false => revert hmem; simp [hres, hbm, msline_ne_plain]
            | true =>
              by_cases hunit : st.benchmark_unit = chs "ms"
              · exact ⟨rfl, hunit, (isEmpty_false_iff _).mp hres⟩
              · revert hmem
                simp [hres, hbm, hunit, msline_ne_t0, msline_ne_try]
      · cases hexp : st.state_export_expr.isEmpty with
        | true => revert hmem; simp [hexp]
        | false =>
          exact absurd (by simpa [hexp] using hmem) (msline_notin_export st.state_export_expr path)
    · rintro ⟨hbm, hunit, hres⟩
      have hres' : st.result_expr.isEmpty = false := (isEmpty_false_iff _).mpr hres
      simp [r_exec_lines, hbm, hunit, hres']

theorem claim_C7_witness :
    bench_reported (chs "ms") (Except.ok (5 : ℚ)) = Except.ok (1000 * 5) ∧
    (bench_ms_line ∈ r_exec_lines { result_expr := chs "f()", benchmark_mode := true, benchmark_unit := chs "ms" } [] ↔
      ({ result_expr := chs "f()", benchmark_mode := true, benchmark_unit := chs "ms" } : State).benchmark_mode = true ∧
      ({ result_expr := chs "f()", benchmark_mode := true, benchmark_unit := chs "ms" } : State).benchmark_unit = chs "ms" ∧
      ({ result_expr := chs "f()", benchmark_mode := true, benchmark_unit := chs "ms" } : State).result_expr ≠ []) :=
  ⟨(claim_C7.1 5).1,
   claim_C7.2.2 { result_expr := chs "f()", benchmark_mode := true, benchmark_unit := chs "ms" } [] (by decide)⟩

theorem validate_ok_no_capture {st : State} {tmp_out tmp_state : Str} {ctx : SendContext}
    (hres : st.result_expr = []) (hexp : st.state_export_expr = [])
    (hval : validate_state_for_send st tmp_out tmp_state = .ok ctx) :
    st.capture_output = false := by
  cases hcap : st.capture_output with
  | false => rfl
  | true =>
    exfalso
    have h2 := (make_ctx_facts (validate_ok_context hval)).2
    rw [hcap, hres, hexp] at h2
    exact absurd h2 (by decide)

theorem validate_ok_expect {st : State} {tmp_out tmp_state : Str} {ctx : SendContext}
    (hval : validate_state_for_send st tmp_out tmp_state = .ok ctx) :
    ctx.expect_result = (!st.result_expr.isEmpty || !st.state_export_expr.isEmpty) :=
  (make_ctx_facts (validate_ok_context hval)).1

theorem concatAll_ends : ∀ L : List Str, L ≠ [] →
    (∀ x ∈ L, ∃ a0, x = a0 ++ ['\n']) → ∃ a0, concatAll L = a0 ++ ['\n'] := by
  intro L
  induction L with
  | nil => intro hL _; exact absurd rfl hL
  | cons x L ih =>
    intro _ h
    by_cases hL : L = []
    · subst hL
      obtain ⟨a0, ha0⟩ := h x (List.mem_cons_self _ _)
      refine ⟨a0, ?_⟩
      show x ++ concatAll [] = a0 ++ ['\n']
      show x ++ [] = a0 ++ ['\n']
      rw [List.append_nil]
      exact ha0
    · obtain ⟨r0, hr0⟩ := ih hL (fun z hz => h z (List.mem_cons_of_mem _ hz))
      refine ⟨x ++ r0, ?_⟩
      show x ++ concatAll L = _
      rw [hr0, List.append_assoc]

theorem indent_block_ends (text ind : Str) :
    indent_block text ind = [] ∨ ∃ a0, indent_block text ind = a0 ++ ['\n'] := by
  rw [indent_block]
  by_cases hT : text.isEmpty = true
  · rw [if_pos hT]
    exact Or.inl rfl
  · rw [if_neg hT]
    right
    apply concatAll_ends
    · intro hmap
      exact splitNL_ne_nil _ (List.map_eq_nil_iff.mp hmap)
    · intro x hx
      obtain ⟨l, _, hl⟩ := List.mem_map.mp hx
      exact ⟨ind ++ l, by rw [← hl]; simp [List.append_assoc]⟩

set_option maxRecDepth 20000 in
theorem build_append_only_no_marker {st : State} {ctx : SendContext} {code n : Str}
    (hres : st.result_expr = []) (hexp : st.state_export_expr = [])
    (hcre : st.create_global_specs = []) (hmod : st.modify_global_snippets = [])
    (hcap : st.capture_output = false) (hexpect : ctx.expect_result = false)
    (hbuild : build_r_code st ctx = .ok code)
    (hn : n ≠ []) (hnl : '\n' ∉ n) (hsp : ' ' ∉ n)
    (h1 : listHas (code_prologue [] [] false) n = false)
    (h2 : listHas (chs ".codex_run_core <- function() \x7b\n") n = false)
    (h3 : listHas (chs "  .codex_exec_result <<- with(new.env(parent = .GlobalEnv), \x7b\n") n = false)
    (h4 : listHas (chs "  \x7d)\n") n = false)
    (h5 : listHas (chs "\x7d\n") n = false)
    (h6 : listHas msg_exec_block n = false)
    (h7 : listHas leak_epilogue n = false)
    (hsnip : ∀ s ∈ st.append_code_snippets, listHas s n = false) :
    listHas code n = false := by
  simp only [build_r_code, hcre, build_create_lines] at hbuild
  injection hbuild with hX
  have hexec : r_exec_lines st ctx.state_export_path = st.append_code_snippets := by
    rw [r_exec_lines, hres, hexp]
    simp
  have htail : listHas (chs "  \x7d)\n" ++ (chs "\x7d\n" ++ (msg_exec_block ++ leak_epilogue)))
      n = false := by
    cases hq : listHas (chs "  \x7d)\n" ++ (chs "\x7d\n" ++ (msg_exec_block ++ leak_epilogue))) n with
    | false => rfl
    | true =>
      exfalso
      rcases listHas_append_nl hnl ⟨(chs "  \x7d)\n").dropLast, by decide⟩ hq with hh | hq
      · rw [h4] at hh; cases hh
      rcases listHas_append_nl hnl ⟨(chs "\x7d\n").dropLast, by decide⟩ hq with hh | hq
      · rw [h5] at hh; cases hh
      rcases listHas_append_nl hnl ⟨msg_exec_block.dropLast, by decide⟩ hq with hh | hq
      · rw [h6] at hh; cases hh
      rw [h7] at hq; cases hq
  cases hLH : listHas code n with
  | false => rfl
  | true =>
    exfalso
    rw [← hX] at hLH
    rw [hexec, hmod, hcap, hexpect] at hLH
    rw [show List.map modify_line ([] : List Str) = [] from rfl] at hLH
    rw [show join_lines ([] : List Str) = [] from rfl] at hLH
    rw [show joinSep (chs ",") (List.map quoteName ([] : List Str)) = [] from rfl] at hLH
    rw [show (if false = true then escape_for_r_string ctx.out_path else ([] : Str)) = []
      from rfl] at hLH
    rw [show (if false = true then result_section else ([] : Str)) = [] from rfl] at hLH
    rw [run_core_block] at hLH
    rw [show (if (!([] : Str).isEmpty) = true then indent_block ([] : Str) (chs "  ")
      else ([] : Str)) = [] from rfl] at hLH
    simp only [List.append_nil, List.append_assoc] at hLH
    rcases listHas_append_nl hnl ⟨(code_prologue [] [] false).dropLast, by decide⟩ hLH
      with hh | hLH
    · rw [h1] at hh; cases hh
    rcases listHas_append_nl hnl
      ⟨(chs ".codex_run_core <- function() \x7b\n").dropLast, by decide⟩ hLH with hh | hLH
    · rw [h2] at hh; cases hh
    rcases listHas_append_nl hnl
      ⟨(chs "  .codex_exec_result <<- with(new.env(parent = .GlobalEnv), \x7b\n").dropLast,
        by decide⟩ hLH with hh | hLH
    · rw [h3] at hh; cases hh
    rcases indent_block_ends (join_lines st.append_code_snippets) (chs "    ") with hE | hE
    · rw [hE, List.nil_append] at hLH
      rw [htail] at hLH
      cases hLH
    · rcases listHas_append_nl hnl hE hLH with hh | hLH
      · have hjoin := indent_block_has hn hnl hsp (by decide) hh
        obtain ⟨s, hs, hhs⟩ := join_lines_has hn hnl _ hjoin
        rw [hsnip s hs] at hhs
        cases hhs
      · rw [htail] at hLH
        cases hLH

set_option maxRecDepth 20000 in
/-- C4: for a validated request whose only capabilities are append fragments,
the send context expects no result artifact and the synthesized fragment
contains none of the terminal-outcome serialization instructions (`dput(` /
`writeLines(` calls), provided the appended snippets do not themselves embed
those tokens as text. -/
theorem claim_C4 (st : State) (tmp_out tmp_state : Str) (ctx : SendContext) (code : Str)
    (hres : st.result_expr = []) (hexp : st.state_export_expr = [])
    (hcre : st.create_global_specs = []) (hmod : st.modify_global_snippets = [])
    (hsnip : ∀ s ∈ st.append_code_snippets,
      listHas s (chs "dput(") = false ∧ listHas s (chs "writeLines(") = false)
    (hval : validate_state_for_send st tmp_out tmp_state = .ok ctx)
    (hbuild : build_r_code st ctx = .ok code) :
    ctx.expect_result = false ∧
    listHas code (chs "dput(") = false ∧
    listHas code (chs "writeLines(") = false := by
  have hexpect : ctx.expect_result = false := by
    rw [validate_ok_expect hval, hres, hexp]
    rfl
  have hcap : st.capture_output = false := validate_ok_no_capture hres hexp hval
  refine ⟨hexpect, ?_, ?_⟩
  · exact build_append_only_no_marker hres hexp hcre hmod hcap hexpect hbuild
      (by decide) (by decide) (by decide) (by decide) (by decide) (by decide)
      (by decide) (by decide) (by decide) (by decide)
      (fun s hs => (hsnip s hs).1)
  · exact build_append_only_no_marker hres hexp hcre hmod hcap hexpect hbuild
      (by decide) (by decide) (by decide) (by decide) (by decide) (by decide)
      (by decide) (by decide) (by decide) (by decide)
      (fun s hs => (hsnip s hs).2)

set_option maxRecDepth 20000 in
theorem claim_C4_witness :
    c4_ctx.expect_result = false ∧
    listHas c4_code (chs "dput(") = false ∧
    listHas c4_code (chs "writeLines(") = false :=
  claim_C4 c4_state [] [] c4_ctx c4_code rfl rfl rfl rfl (by decide) rfl rfl
